import Mathlib

/-!
Shallow embedding of the patient CRUD service in `src/app.py`.

The service stores a JSON object mapping patient IDs to record objects
(`patients.json`); every handler loads the whole mapping, possibly mutates
it, and writes it back.  We model JSON values (`JVal`), Python dicts as
insertion-ordered association lists (`PyDict`), the pydantic `Patient`
model with its field constraints, `model_dump`, and each endpoint as a
pure function from the loaded store (plus request data) to the persisted
store and a response.  An endpoint that raises `HTTPException` before
`save_data` leaves the persisted store unchanged, so on the error paths
the returned store is the input store.

A central fact of the source: the `@computed_field` properties `bmi` and
`verdict` (src/app.py lines 36-53) are written at module level, OUTSIDE
the `Patient` class body, so the `Patient` model has no `bmi`/`verdict`
fields; `model_dump` never emits them and no handler ever computes them.
We embed them below as the standalone functions they actually are.
-/

/-- JSON values as far as this service manipulates them. -/
inductive JVal where
  | s (v : String)
  | i (v : Int)
  | q (v : ℚ)
  | null
deriving DecidableEq, Repr

/-- Python dict with string keys, modelled as an insertion-ordered
association list with (in well-formed states) unique keys. -/
abbrev PyDict (α : Type) := List (String × α)

/-- Dict lookup, first occurrence (Python `d[k]` / `d.get(k)` / `k in d`). -/
def dget {α : Type} : PyDict α → String → Option α
  | [], _ => none
  | kv :: rest, k => if kv.1 = k then some kv.2 else dget rest k

/-- Dict assignment `d[k] = v`: replaces in place the first binding of `k`,
otherwise appends, matching Python dict insertion-order semantics. -/
def dset {α : Type} : PyDict α → String → α → PyDict α
  | [], k, v => [(k, v)]
  | kv :: rest, k, v => if kv.1 = k then (k, v) :: rest else kv :: dset rest k v

/-- Dict deletion `del d[k]`. -/
def ddel {α : Type} : PyDict α → String → PyDict α
  | [], _ => []
  | kv :: rest, k => if kv.1 = k then ddel rest k else kv :: ddel rest k

/-- The pydantic `Patient` model (src/app.py lines 10-20).  It has exactly
these seven declared fields; the module-level `bmi`/`verdict` properties
are not part of the class. -/
structure Patient where
  id : String
  name : String
  city : String
  age : Int
  gender : String
  height : ℚ
  weight : ℚ
deriving DecidableEq, Repr

def genderOK (g : String) : Bool :=
  g == "male" || g == "female" || g == "other"

/-- Field constraints of `Patient`: `age` in the open interval (0,120),
`height` and `weight` strictly positive, `gender` one of three literals. -/
def patientOK (p : Patient) : Prop :=
  0 < p.age ∧ p.age < 120 ∧ genderOK p.gender = true ∧ 0 < p.height ∧ 0 < p.weight

instance (p : Patient) : Decidable (patientOK p) := by
  unfold patientOK; infer_instance

/-- Coercion of a JSON value to a pydantic `str` field. -/
def asStr : JVal → Option String
  | .s v => some v
  | _ => none

/-- Coercion of a JSON value to a pydantic `int` field.  (Service-written
stores always hold ages as JSON integers, so the lax integral-float
coercion never fires and is omitted.) -/
def asInt : JVal → Option Int
  | .i v => some v
  | _ => none

/-- Coercion of a JSON value to a pydantic `float` field: JSON integers
and floats both coerce. -/
def asNum : JVal → Option ℚ
  | .i v => some (v : ℚ)
  | .q v => some v
  | _ => none

/-- Construction `Patient(**info)`: every declared field must be present
with a coercible non-null value, extra keys are ignored (pydantic default),
and the field constraints must hold; otherwise pydantic raises
`ValidationError`. -/
def validatePatient (d : PyDict JVal) : Option Patient := do
  let i ← (dget d "id").bind asStr
  let n ← (dget d "name").bind asStr
  let c ← (dget d "city").bind asStr
  let a ← (dget d "age").bind asInt
  let g ← (dget d "gender").bind asStr
  let h ← (dget d "height").bind asNum
  let w ← (dget d "weight").bind asNum
  let p : Patient := ⟨i, n, c, a, g, h, w⟩
  if patientOK p then some p else none

/-- Serialization `patient.model_dump(exclude=["id"])` as used by both
create (line 128) and update (line 153).  Because the `bmi`/`verdict`
computed fields sit outside the class, the dump holds exactly the six
declared non-id fields and nothing else. -/
def model_dump_no_id (p : Patient) : PyDict JVal :=
  [("name", .s p.name), ("city", .s p.city), ("age", .i p.age),
   ("gender", .s p.gender), ("height", .q p.height), ("weight", .q p.weight)]

/-- The persisted store: patient ID to record object. -/
abbrev Store := PyDict (PyDict JVal)

/-- Response outcomes of the handlers, abstracting the HTTP layer.
`conflict` is HTTP 400 "Patient already exists", `notFound` is 404,
`badQuery` is the 404 raised for an invalid sort field or order, and
`validationError` is the 422-style pydantic failure on `Patient(**info)`. -/
inductive Resp where
  | created
  | updated
  | deleted
  | conflict
  | notFound
  | badQuery
  | validationError
deriving DecidableEq, Repr

/-- POST /create (src/app.py lines 118-134): reject with 400 when the ID
is already a key, otherwise persist `model_dump(exclude=["id"])` under the
ID.  The body has already been validated as a full `Patient` by FastAPI. -/
def create_patient (store : Store) (patient : Patient) : Store × Resp :=
  if (dget store patient.id).isSome then (store, .conflict)
  else (dset store patient.id (model_dump_no_id patient), .created)

/-- The merge loop of the update handler (src/app.py lines 146-147):
`for key, value in updated_patient_info.items(): existing[key] = value`.
`patch` is `patient_update.model_dump(exclude_unset=True)`: exactly the
fields the request body explicitly supplied, nulls included. -/
def apply_update (existing patch : PyDict JVal) : PyDict JVal :=
  patch.foldl (fun acc kv => dset acc kv.1 kv.2) existing

/-- PUT /edit (src/app.py lines 137-160): 404 when the ID is absent;
otherwise merge the patch over the stored record, force the path ID in,
re-validate as a full `Patient` (raising before `save_data` on failure),
and persist the re-dumped record. -/
def update_patient (store : Store) (pid : String) (patch : PyDict JVal) :
    Store × Resp :=
  match dget store pid with
  | none => (store, .notFound)
  | some existing =>
    let merged := dset (apply_update existing patch) "id" (.s pid)
    match validatePatient merged with
    | none => (store, .validationError)
    | some p => (dset store pid (model_dump_no_id p), .updated)

/-- DELETE /patient (src/app.py lines 163-173). -/
def delete_patient (store : Store) (pid : String) : Store × Resp :=
  if (dget store pid).isSome then (ddel store pid, .deleted)
  else (store, .notFound)

/-- GET /patients/id (src/app.py lines 83-92): `none` models the 404. -/
def view_patient (store : Store) (pid : String) : Option (PyDict JVal) :=
  dget store pid

/-- Rounding to two decimals, `round(x, 2)`, with the half-to-even tie
rule of Python `round`.  (The spec fixes only the 2-decimal precision,
not the tie rule, and no claim below depends on a tie.) -/
def round2 (x : ℚ) : ℚ :=
  let y := x * 100
  let f : ℤ := ⌊y⌋
  let frac := y - (f : ℚ)
  let r : ℤ :=
    if frac < 1/2 then f
    else if 1/2 < frac then f + 1
    else if f % 2 = 0 then f else f + 1
  (r : ℚ) / 100

/-- The module-level `bmi` property (src/app.py lines 36-40).  Declared
outside the `Patient` class, so nothing in the service ever calls it. -/
def bmi (height weight : ℚ) : ℚ := round2 (weight / height ^ 2)

/-- The module-level `verdict` property (src/app.py lines 43-53), with its
two duplicated "Normal" branches.  Also dead code, like `bmi`. -/
def verdict (height weight : ℚ) : String :=
  if bmi height weight < 18.5 then "Underweight"
  else if bmi height weight < 25 then "Normal"
  else if bmi height weight < 30 then "Normal"
  else "Obese"

/-- The sort key `x.get(sort_by, 0)` (src/app.py line 113): an absent key
defaults to 0.  Stored `height`/`weight` values are always JSON numbers,
so the coercion is exact on every reachable store. -/
def sortKey (d : PyDict JVal) (field : String) : ℚ :=
  match dget d field with
  | some v => (asNum v).getD 0
  | none => 0

/-- Python `sorted(l, key=key, reverse=r)`: a stable sort; CPython
implements `reverse=True` by reversing the list before and after a stable
ascending sort, so ties keep their original relative order in both
directions.  Every stable comparison sort computes the same list for a
total key preorder, so we use stable insertion sort. -/
def pysorted {α : Type} (l : List α) (key : α → ℚ) (reverse : Bool) :
    List α :=
  if reverse then
    (List.insertionSort (fun a b => key a ≤ key b) l.reverse).reverse
  else List.insertionSort (fun a b => key a ≤ key b) l

def valid_feilds : List String := ["height", "weight", "bmi"]

deriving instance DecidableEq for Except

/-- GET /sort (src/app.py lines 95-115): validate `sort_by` then `order`,
then sort `data.values()` (insertion order) by the requested key. -/
def sort_patients (store : Store) (sort_by order : String) :
    Except Resp (List (PyDict JVal)) :=
  if sort_by ∈ valid_feilds then
    if order = "asc" ∨ order = "desc" then
      .ok (pysorted (store.map (·.2)) (fun d => sortKey d sort_by)
            (order = "desc"))
    else .error .badQuery
  else .error .badQuery

/-- Well-formed stored record: exactly what `model_dump(exclude=["id"])`
of a constraint-satisfying `Patient` produces.  Every record the service
itself persists has this shape. -/
def WFrec (d : PyDict JVal) : Prop :=
  ∃ p : Patient, patientOK p ∧ d = model_dump_no_id p

/-- Store invariant: every stored record is well formed. -/
def ValidStore (s : Store) : Prop := ∀ kv ∈ s, WFrec kv.2

/-! ### Dictionary lemmas -/

theorem dget_dset_self {α : Type} (d : PyDict α) (k : String) (v : α) :
    dget (dset d k v) k = some v := by
  induction d with
  | nil => simp [dget, dset]
  | cons kv rest ih =>
    by_cases h : kv.1 = k
    · simp [dget, dset, h]
    · simp [dget, dset, h, ih]

theorem dget_dset_ne {α : Type} (d : PyDict α) (k k' : String) (v : α)
    (h : k' ≠ k) : dget (dset d k v) k' = dget d k' := by
  induction d with
  | nil => simp [dget, dset, Ne.symm h]
  | cons kv rest ih =>
    by_cases hk : kv.1 = k
    · simp [dget, dset, hk, Ne.symm h]
    · simp [dget, dset, hk, ih]

theorem dget_ddel_self {α : Type} (d : PyDict α) (k : String) :
    dget (ddel d k) k = none := by
  induction d with
  | nil => simp [dget, ddel]
  | cons kv rest ih =>
    by_cases h : kv.1 = k
    · simp [ddel, h, ih]
    · simp [dget, ddel, h, ih]

theorem dget_ddel_ne {α : Type} (d : PyDict α) (k k' : String)
    (h : k' ≠ k) : dget (ddel d k) k' = dget d k' := by
  induction d with
  | nil => simp [ddel]
  | cons kv rest ih =>
    by_cases hk : kv.1 = k
    · subst hk
      simp [dget, ddel, Ne.symm h, ih]
    · simp [dget, ddel, hk, ih]

theorem mem_dset {α : Type} (d : PyDict α) (k : String) (v : α) :
    ∀ kv ∈ dset d k v, kv ∈ d ∨ kv = (k, v) := by
  induction d with
  | nil => simp [dset]
  | cons kv₀ rest ih =>
    intro kv hkv
    by_cases h : kv₀.1 = k
    · simp only [dset, h, if_pos, List.mem_cons] at hkv
      rcases hkv with h1 | h1
      · right; exact h1
      · left; exact List.mem_cons_of_mem _ h1
    · simp only [dset, h, if_neg, not_false_iff, List.mem_cons] at hkv
      rcases hkv with h1 | h1
      · left; simp [h1]
      · rcases ih kv h1 with h2 | h2
        · left; exact List.mem_cons_of_mem _ h2
        · right; exact h2

theorem mem_ddel {α : Type} (d : PyDict α) (k : String) :
    ∀ kv ∈ ddel d k, kv ∈ d := by
  induction d with
  | nil => simp [ddel]
  | cons kv₀ rest ih =>
    intro kv hkv
    by_cases h : kv₀.1 = k
    · simp only [ddel, h, if_pos] at hkv
      exact List.mem_cons_of_mem _ (ih kv hkv)
    · simp only [ddel, h, if_neg, not_false_iff, List.mem_cons] at hkv
      rcases hkv with h1 | h1
      · simp [h1]
      · exact List.mem_cons_of_mem _ (ih kv h1)

theorem dget_eq_none_of_not_mem {α : Type} (d : PyDict α) (k : String)
    (h : k ∉ d.map Prod.fst) : dget d k = none := by
  induction d with
  | nil => simp [dget]
  | cons kv rest ih =>
    simp only [List.map_cons, List.mem_cons, not_or] at h
    simp [dget, Ne.symm h.1, ih h.2]

/-! ### Merge-loop lemmas -/

theorem apply_update_cons (d : PyDict JVal) (kv : String × JVal)
    (rest : PyDict JVal) :
    apply_update d (kv :: rest) = apply_update (dset d kv.1 kv.2) rest := by
  simp [apply_update]

theorem apply_update_absent (d patch : PyDict JVal) (f : String)
    (h : dget patch f = none) :
    dget (apply_update d patch) f = dget d f := by
  induction patch generalizing d with
  | nil => simp [apply_update]
  | cons kv rest ih =>
    by_cases hk : kv.1 = f
    · simp [dget, hk] at h
    · simp only [dget, hk, if_neg, not_false_iff] at h
      rw [apply_update_cons, ih _ h, dget_dset_ne _ _ _ _ (fun e => hk e.symm)]

theorem apply_update_present (d patch : PyDict JVal) (f : String) (v : JVal)
    (hnd : (patch.map Prod.fst).Nodup) (h : dget patch f = some v) :
    dget (apply_update d patch) f = some v := by
  induction patch generalizing d with
  | nil => simp [dget] at h
  | cons kv rest ih =>
    simp only [List.map_cons, List.nodup_cons] at hnd
    by_cases hk : kv.1 = f
    · subst hk
      simp only [dget, if_pos] at h
      rw [apply_update_cons,
        apply_update_absent _ _ _ (dget_eq_none_of_not_mem _ _ hnd.1),
        dget_dset_self, h]
    · simp only [dget, hk, if_neg, not_false_iff] at h
      rw [apply_update_cons, ih _ hnd.2 h]

/-! ### Validation lemmas -/

theorem asStr_eq_some {v : JVal} {x : String} :
    asStr v = some x ↔ v = .s x := by
  cases v <;> simp [asStr]

theorem asInt_eq_some {v : JVal} {x : Int} :
    asInt v = some x ↔ v = .i x := by
  cases v <;> simp [asInt]

/-- Inversion for a successful `Patient(**info)` construction: each field
was read from the dict and the constraints hold. -/
theorem validatePatient_eq_some {d : PyDict JVal} {p : Patient}
    (h : validatePatient d = some p) :
    dget d "id" = some (.s p.id) ∧ dget d "name" = some (.s p.name) ∧
    dget d "city" = some (.s p.city) ∧ dget d "age" = some (.i p.age) ∧
    dget d "gender" = some (.s p.gender) ∧
    (∃ v, dget d "height" = some v ∧ asNum v = some p.height) ∧
    (∃ v, dget d "weight" = some v ∧ asNum v = some p.weight) ∧
    patientOK p := by
  unfold validatePatient at h
  simp only [bind, Option.bind_eq_some] at h
  obtain ⟨i, hi, n, hn, c, hc, a, ha, g, hg, hh', hrest⟩ := h
  obtain ⟨hv, hw, hfin⟩ := hrest
  obtain ⟨vi, hvi, hsi⟩ := hi
  obtain ⟨vn, hvn, hsn⟩ := hn
  obtain ⟨vc, hvc, hsc⟩ := hc
  obtain ⟨va, hva, hsa⟩ := ha
  obtain ⟨vg, hvg, hsg⟩ := hg
  obtain ⟨vh, hvh, hsh⟩ := hv
  obtain ⟨vw, hvw, hsw⟩ := hfin.1
  have hif := hfin.2
  rw [asStr_eq_some] at hsi hsn hsc hsg
  rw [asInt_eq_some] at hsa
  subst hsi hsn hsc hsa hsg
  by_cases hok : patientOK ⟨i, n, c, a, g, hh', hw⟩
  · rw [if_pos hok] at hif
    injection hif with hp
    subst hp
    exact ⟨hvi, hvn, hvc, hva, hvg, ⟨vh, hvh, hsh⟩, ⟨vw, hvw, hsw⟩, hok⟩
  · rw [if_neg hok] at hif
    simp at hif

theorem validatePatient_ok {d : PyDict JVal} {p : Patient}
    (h : validatePatient d = some p) : patientOK p :=
  (validatePatient_eq_some h).2.2.2.2.2.2.2

/-! ### Endpoint inversion lemmas -/

theorem update_patient_rejected {s : Store} {pid : String}
    {patch rec : PyDict JVal} (hrec : dget s pid = some rec)
    (hval : validatePatient (dset (apply_update rec patch) "id" (.s pid))
      = none) :
    update_patient s pid patch = (s, .validationError) := by
  simp [update_patient, hrec, hval]

theorem update_patient_updated {s s' : Store} {pid : String}
    {patch : PyDict JVal}
    (h : update_patient s pid patch = (s', .updated)) :
    ∃ rec p, dget s pid = some rec ∧
      validatePatient (dset (apply_update rec patch) "id" (.s pid))
        = some p ∧
      s' = dset s pid (model_dump_no_id p) := by
  cases hrec : dget s pid with
  | none => simp [update_patient, hrec] at h
  | some rec =>
    cases hval : validatePatient (dset (apply_update rec patch) "id" (.s pid))
      with
    | none => simp [update_patient, hrec, hval] at h
    | some p =>
      simp only [update_patient, hrec, hval, Prod.mk.injEq] at h
      exact ⟨rec, p, rfl, hval, h.1.symm⟩

/-! ### Sorting lemmas -/

/-- Two lists that are permutations of each other, both sorted by a key,
are equal when the keys are pairwise distinct. -/
theorem sorted_nodup_key_eq {α : Type} (key : α → ℚ) (l₁ : List α) :
    ∀ l₂ : List α, l₁.Perm l₂ →
      l₁.Pairwise (fun a b => key a ≤ key b) →
      l₂.Pairwise (fun a b => key a ≤ key b) →
      (l₁.map key).Nodup → l₁ = l₂ := by
  induction l₁ with
  | nil =>
    intro l₂ hp _ _ _
    exact (List.nil_perm.mp hp).symm
  | cons a t₁ ih =>
    intro l₂ hp hs₁ hs₂ hnd
    cases l₂ with
    | nil => exact absurd hp (by simp)
    | cons b t₂ =>
      have hmem_a : a ∈ b :: t₂ := hp.mem_iff.mp (List.mem_cons_self a t₁)
      have hmem_b : b ∈ a :: t₁ := hp.mem_iff.mpr (List.mem_cons_self b t₂)
      have hab : a = b := by
        rcases List.mem_cons.mp hmem_a with h | h
        · exact h
        rcases List.mem_cons.mp hmem_b with h' | h'
        · exact h'.symm
        have h1 : key b ≤ key a := (List.pairwise_cons.mp hs₂).1 a h
        have h2 : key a ≤ key b := (List.pairwise_cons.mp hs₁).1 b h'
        exact List.inj_on_of_nodup_map hnd (List.mem_cons_self a t₁) hmem_b
          (le_antisymm h2 h1)
      subst hab
      have hnd' : (t₁.map key).Nodup := by
        simp only [List.map_cons, List.nodup_cons] at hnd
        exact hnd.2
      rw [ih t₂ hp.cons_inv (List.pairwise_cons.mp hs₁).2
        (List.pairwise_cons.mp hs₂).2 hnd']

/-- With pairwise-distinct keys, the stable ascending sort of any
permutation of a list gives the same result. -/
theorem insertionSort_key_perm_eq {α : Type} (key : α → ℚ)
    (l l' : List α) (hperm : l.Perm l')
    (hnd : (l.map key).Nodup) :
    List.insertionSort (fun a b => key a ≤ key b) l
      = List.insertionSort (fun a b => key a ≤ key b) l' := by
  haveI : IsTotal α (fun a b => key a ≤ key b) :=
    ⟨fun a b => le_total (key a) (key b)⟩
  haveI : IsTrans α (fun a b => key a ≤ key b) :=
    ⟨fun a b c hab hbc => le_trans hab hbc⟩
  apply sorted_nodup_key_eq key
  · exact (List.perm_insertionSort _ l).trans
      (hperm.trans (List.perm_insertionSort _ l').symm)
  · exact List.sorted_insertionSort _ l
  · exact List.sorted_insertionSort _ l'
  · exact (((List.perm_insertionSort _ l).map key).nodup_iff).mpr hnd

/-! ### Concrete data for witnesses -/

def alice : Patient := ⟨"P001", "Alice", "Lahore", 30, "female", 2, 80⟩

def basim : Patient := ⟨"P002", "Basim", "Karachi", 40, "male", 3, 315⟩

def carol : Patient := ⟨"P003", "Carol", "Quetta", 25, "female", 2, 60⟩

/-! ### Claims -/

/-- C6: creating a patient whose ID is already a key of the store fails
with Conflict (HTTP 400) and leaves the store, in particular the original
record under that ID, unchanged. -/
theorem C6_create_duplicate (s : Store) (p : Patient)
    (rec : PyDict JVal) (h : dget s p.id = some rec) :
    create_patient s p = (s, .conflict) ∧
    dget (create_patient s p).1 p.id = some rec := by
  constructor
  · simp [create_patient, h]
  · simp [create_patient, h]

/-- Witness for C6 at a concrete store: creating a second record under
P001 is rejected and the stored record stays the Alice record. -/
theorem C6_create_duplicate_witness :
    create_patient [("P001", model_dump_no_id alice)]
        ⟨"P001", "Imposter", "Multan", 50, "male", 1, 50⟩
      = ([("P001", model_dump_no_id alice)], .conflict) ∧
    dget (create_patient [("P001", model_dump_no_id alice)]
        ⟨"P001", "Imposter", "Multan", 50, "male", 1, 50⟩).1 "P001"
      = some (model_dump_no_id alice) :=
  C6_create_duplicate [("P001", model_dump_no_id alice)]
    ⟨"P001", "Imposter", "Multan", 50, "male", 1, 50⟩
    (model_dump_no_id alice) (by decide)

/-- C7: deleting a nonexistent ID fails with NotFound and leaves the
store unchanged; deleting an existing ID removes exactly that record, so
a subsequent fetch of it fails with NotFound while every other ID still
resolves to its old record. -/
theorem C7_delete (s : Store) (pid : String) :
    (dget s pid = none → delete_patient s pid = (s, .notFound)) ∧
    ∀ rec, dget s pid = some rec →
      (delete_patient s pid).2 = .deleted ∧
      view_patient (delete_patient s pid).1 pid = none ∧
      ∀ pid2, pid2 ≠ pid →
        dget (delete_patient s pid).1 pid2 = dget s pid2 := by
  constructor
  · intro h
    simp [delete_patient, h]
  · intro rec h
    refine ⟨by simp [delete_patient, h], ?_, ?_⟩
    · simp [delete_patient, h, view_patient, dget_ddel_self]
    · intro pid2 hne
      simp [delete_patient, h, dget_ddel_ne _ _ _ hne]

/-- Witness for C7 on a two-record store: deleting P009 is NotFound with
the store intact, deleting P001 succeeds, a fetch of P001 then misses,
and P002 still resolves. -/
theorem C7_delete_witness :
    (delete_patient
        [("P001", model_dump_no_id alice), ("P002", model_dump_no_id basim)]
        "P009"
      = ([("P001", model_dump_no_id alice), ("P002", model_dump_no_id basim)],
         .notFound)) ∧
    ((delete_patient
        [("P001", model_dump_no_id alice), ("P002", model_dump_no_id basim)]
        "P001").2 = .deleted ∧
      view_patient (delete_patient
        [("P001", model_dump_no_id alice), ("P002", model_dump_no_id basim)]
        "P001").1 "P001" = none ∧
      dget (delete_patient
        [("P001", model_dump_no_id alice), ("P002", model_dump_no_id basim)]
        "P001").1 "P002"
        = dget
          [("P001", model_dump_no_id alice), ("P002", model_dump_no_id basim)]
          "P002") := by
  refine ⟨?_, ?_, ?_, ?_⟩
  · exact (C7_delete
      [("P001", model_dump_no_id alice), ("P002", model_dump_no_id basim)]
      "P009").1 (by decide)
  · exact ((C7_delete
      [("P001", model_dump_no_id alice), ("P002", model_dump_no_id basim)]
      "P001").2 (model_dump_no_id alice) (by decide)).1
  · exact ((C7_delete
      [("P001", model_dump_no_id alice), ("P002", model_dump_no_id basim)]
      "P001").2 (model_dump_no_id alice) (by decide)).2.1
  · exact ((C7_delete
      [("P001", model_dump_no_id alice), ("P002", model_dump_no_id basim)]
      "P001").2 (model_dump_no_id alice) (by decide)).2.2 "P002" (by decide)

/-- C9: a successful create persists, under the patient ID as the mapping
key, a value whose keys are exactly name, city, age, gender, height and
weight; the id field is not stored inside the value. -/
theorem C9_create_shape (s : Store) (p : Patient)
    (h : dget s p.id = none) :
    (create_patient s p).2 = .created ∧
    dget (create_patient s p).1 p.id = some (model_dump_no_id p) ∧
    (model_dump_no_id p).map Prod.fst =
      ["name", "city", "age", "gender", "height", "weight"] ∧
    dget (model_dump_no_id p) "id" = none := by
  refine ⟨by simp [create_patient, h], ?_, by simp [model_dump_no_id], ?_⟩
  · simp [create_patient, h, dget_dset_self]
  · simp [model_dump_no_id, dget]

/-- Witness for C9: creating Alice in the empty store persists exactly
the six non-id fields under key P001. -/
theorem C9_create_shape_witness :
    (create_patient [] alice).2 = .created ∧
    dget (create_patient [] alice).1 "P001"
      = some (model_dump_no_id alice) ∧
    (model_dump_no_id alice).map Prod.fst =
      ["name", "city", "age", "gender", "height", "weight"] ∧
    dget (model_dump_no_id alice) "id" = none :=
  C9_create_shape [] alice (by decide)

/-- C4: when the merged record fails re-validation as a full Patient, the
update request is rejected in its entirety and the persisted store is
exactly the pre-request store. -/
theorem C4_update_reject_no_write (s : Store) (pid : String)
    (patch rec : PyDict JVal) (hrec : dget s pid = some rec)
    (hval : validatePatient (dset (apply_update rec patch) "id" (.s pid))
      = none) :
    update_patient s pid patch = (s, .validationError) :=
  update_patient_rejected hrec hval

/-- Witness for C4: a patch setting age to 150 (valid for PatientUpdate,
which bounds age below only) merges into a record that fails the
full-Patient bound age less than 120, and the store is untouched. -/
theorem C4_update_reject_no_write_witness :
    update_patient [("P001", model_dump_no_id alice)] "P001"
        [("age", .i 150)]
      = ([("P001", model_dump_no_id alice)], .validationError) :=
  C4_update_reject_no_write [("P001", model_dump_no_id alice)] "P001"
    [("age", .i 150)] (model_dump_no_id alice) (by decide) (by decide)

/-- C5: from a valid store, create (whose body FastAPI has validated as a
full Patient), update and delete only ever persist records satisfying the
field constraints: height and weight positive, age strictly between 0 and
120, gender one of the three literals. -/
theorem C5_store_invariant (s : Store) (hs : ValidStore s) :
    (∀ p, patientOK p → ValidStore (create_patient s p).1) ∧
    (∀ pid patch, ValidStore (update_patient s pid patch).1) ∧
    (∀ pid, ValidStore (delete_patient s pid).1) := by
  refine ⟨?_, ?_, ?_⟩
  · intro p hp kv hkv
    by_cases hc : (dget s p.id).isSome = true
    · simp only [create_patient, hc, if_true] at hkv
      exact hs kv hkv
    · simp only [create_patient, hc, if_false] at hkv
      rcases mem_dset s p.id (model_dump_no_id p) kv hkv with h1 | h1
      · exact hs kv h1
      · subst h1
        exact ⟨p, hp, rfl⟩
  · intro pid patch kv hkv
    cases hrec : dget s pid with
    | none =>
      simp only [update_patient, hrec] at hkv
      exact hs kv hkv
    | some rec =>
      cases hval : validatePatient
          (dset (apply_update rec patch) "id" (.s pid)) with
      | none =>
        simp only [update_patient, hrec, hval] at hkv
        exact hs kv hkv
      | some p =>
        simp only [update_patient, hrec, hval] at hkv
        rcases mem_dset s pid (model_dump_no_id p) kv hkv with h1 | h1
        · exact hs kv h1
        · subst h1
          exact ⟨p, validatePatient_ok hval, rfl⟩
  · intro pid kv hkv
    by_cases hc : (dget s pid).isSome = true
    · simp only [delete_patient, hc, if_true] at hkv
      exact hs kv (mem_ddel s pid kv hkv)
    · simp only [delete_patient, hc, if_false] at hkv
      exact hs kv hkv

/-- Witness for C5 on a concrete valid one-record store, exercising all
three mutating operations. -/
theorem C5_store_invariant_witness :
    ValidStore (create_patient [("P001", model_dump_no_id alice)] basim).1 ∧
    ValidStore (update_patient [("P001", model_dump_no_id alice)] "P001"
      [("weight", .q 90)]).1 ∧
    ValidStore (delete_patient [("P001", model_dump_no_id alice)] "P001").1 := by
  have hv : ValidStore [("P001", model_dump_no_id alice)] := by
    intro kv hkv
    simp only [List.mem_singleton] at hkv
    subst hkv
    exact ⟨alice, by decide, rfl⟩
  exact ⟨(C5_store_invariant _ hv).1 basim (by decide),
    (C5_store_invariant _ hv).2.1 "P001" [("weight", .q 90)],
    (C5_store_invariant _ hv).2.2 "P001"⟩

/-- C3: a successful partial update overwrites exactly the fields present
in the patch and leaves every absent field unchanged in the stored
record: present fields win in the merge, absent fields keep their stored
value, and the re-persisted record agrees with the old record on every
field the patch did not mention. -/
theorem C3_partial_update_merge (s s' : Store) (pid : String)
    (rec patch : PyDict JVal)
    (hrec : dget s pid = some rec) (hwf : WFrec rec)
    (hupd : update_patient s pid patch = (s', .updated)) :
    (∀ f v, (patch.map Prod.fst).Nodup → dget patch f = some v →
      dget (apply_update rec patch) f = some v) ∧
    (∀ f, dget patch f = none →
      dget (apply_update rec patch) f = dget rec f) ∧
    (∀ f, f ∈ ["name", "city", "age", "gender", "height", "weight"] →
      dget patch f = none →
      ∃ rec', dget s' pid = some rec' ∧ dget rec' f = dget rec f) := by
  obtain ⟨q, hq, hshape⟩ := hwf
  obtain ⟨rec₀, p, hrec₀, hval, hs'⟩ := update_patient_updated hupd
  rw [hrec] at hrec₀
  injection hrec₀ with hrec₀
  subst hrec₀
  refine ⟨fun f v hnd hv => apply_update_present _ _ _ _ hnd hv,
    fun f hf => apply_update_absent _ _ _ hf, ?_⟩
  intro f hf hpf
  have spec := validatePatient_eq_some hval
  have hne : f ≠ "id" := by
    intro e
    subst e
    exact absurd hf (by decide)
  have hmerge : dget (dset (apply_update rec patch) "id" (.s pid)) f
      = dget rec f := by
    rw [dget_dset_ne _ _ _ _ hne, apply_update_absent _ _ _ hpf]
  refine ⟨model_dump_no_id p, by rw [hs', dget_dset_self], ?_⟩
  subst hshape
  simp only [List.mem_cons, List.not_mem_nil, or_false] at hf
  rcases hf with rfl | rfl | rfl | rfl | rfl | rfl
  · have h1 := spec.2.1
    rw [hmerge] at h1
    simp only [model_dump_no_id, dget, String.reduceEq, reduceIte] at h1 ⊢
    simp_all
  · have h1 := spec.2.2.1
    rw [hmerge] at h1
    simp only [model_dump_no_id, dget, String.reduceEq, reduceIte] at h1 ⊢
    simp_all
  · have h1 := spec.2.2.2.1
    rw [hmerge] at h1
    simp only [model_dump_no_id, dget, String.reduceEq, reduceIte] at h1 ⊢
    simp_all
  · have h1 := spec.2.2.2.2.1
    rw [hmerge] at h1
    simp only [model_dump_no_id, dget, String.reduceEq, reduceIte] at h1 ⊢
    simp_all
  · obtain ⟨v, hv1, hv2⟩ := spec.2.2.2.2.2.1
    rw [hmerge] at hv1
    simp only [model_dump_no_id, dget, String.reduceEq, reduceIte] at hv1 ⊢
    obtain rfl : v = .q q.height := (Option.some.inj hv1).symm
    simp only [asNum, Option.some.injEq] at hv2
    simp_all
  · obtain ⟨v, hv1, hv2⟩ := spec.2.2.2.2.2.2.1
    rw [hmerge] at hv1
    simp only [model_dump_no_id, dget, String.reduceEq, reduceIte] at hv1 ⊢
    obtain rfl : v = .q q.weight := (Option.some.inj hv1).symm
    simp only [asNum, Option.some.injEq] at hv2
    simp_all

/-- Witness for C3: patching only the weight to 90 leaves the stored
height (and hence the rest of the record shape) identical, and the merge
keeps every absent field. -/
theorem C3_partial_update_merge_witness :
    ∃ rec',
      dget [("P001",
        model_dump_no_id ⟨"P001", "Alice", "Lahore", 30, "female", 2, 90⟩)]
        "P001" = some rec' ∧
      dget rec' "height" = dget (model_dump_no_id alice) "height" :=
  (C3_partial_update_merge [("P001", model_dump_no_id alice)]
    [("P001",
      model_dump_no_id ⟨"P001", "Alice", "Lahore", 30, "female", 2, 90⟩)]
    "P001" (model_dump_no_id alice) [("weight", .q 90)]
    (by decide) ⟨alice, by decide, rfl⟩ (by decide)).2.2
    "height" (by decide) (by decide)

/-- C10: a patch field explicitly set to null is not treated as absent:
the null value overwrites the stored value in the merge, the merged
record then fails full-Patient re-validation, and the request is rejected
with the store unchanged. -/
theorem C10_null_overwrites (s : Store) (pid : String)
    (rec patch : PyDict JVal) (f : String)
    (hrec : dget s pid = some rec)
    (hf : f ∈ ["name", "city", "age", "gender", "height", "weight"])
    (hnd : (patch.map Prod.fst).Nodup)
    (hnull : dget patch f = some .null) :
    dget (apply_update rec patch) f = some .null ∧
    update_patient s pid patch = (s, .validationError) := by
  have hmerged : dget (apply_update rec patch) f = some .null :=
    apply_update_present _ _ _ _ hnd hnull
  refine ⟨hmerged, ?_⟩
  have hne : f ≠ "id" := by
    intro e
    subst e
    exact absurd hf (by decide)
  have hmf : dget (dset (apply_update rec patch) "id" (.s pid)) f
      = some .null := by
    rw [dget_dset_ne _ _ _ _ hne]
    exact hmerged
  have hval : validatePatient (dset (apply_update rec patch) "id" (.s pid))
      = none := by
    cases hv : validatePatient (dset (apply_update rec patch) "id" (.s pid))
      with
    | none => rfl
    | some p =>
      exfalso
      have spec := validatePatient_eq_some hv
      simp only [List.mem_cons, List.not_mem_nil, or_false] at hf
      rcases hf with rfl | rfl | rfl | rfl | rfl | rfl
      · rw [spec.2.1] at hmf
        exact JVal.noConfusion (Option.some.inj hmf)
      · rw [spec.2.2.1] at hmf
        exact JVal.noConfusion (Option.some.inj hmf)
      · rw [spec.2.2.2.1] at hmf
        exact JVal.noConfusion (Option.some.inj hmf)
      · rw [spec.2.2.2.2.1] at hmf
        exact JVal.noConfusion (Option.some.inj hmf)
      · obtain ⟨v, hv1, hv2⟩ := spec.2.2.2.2.2.1
        rw [hv1] at hmf
        obtain rfl : v = .null := Option.some.inj hmf
        simp [asNum] at hv2
      · obtain ⟨v, hv1, hv2⟩ := spec.2.2.2.2.2.2.1
        rw [hv1] at hmf
        obtain rfl : v = .null := Option.some.inj hmf
        simp [asNum] at hv2
  exact update_patient_rejected hrec hval

/-- Witness for C10: patching height to null merges the null over the
stored height and the whole request is rejected, store untouched. -/
theorem C10_null_overwrites_witness :
    dget (apply_update (model_dump_no_id alice) [("height", .null)])
      "height" = some .null ∧
    update_patient [("P001", model_dump_no_id alice)] "P001"
        [("height", .null)]
      = ([("P001", model_dump_no_id alice)], .validationError) :=
  C10_null_overwrites [("P001", model_dump_no_id alice)] "P001"
    (model_dump_no_id alice) [("height", .null)] "height"
    (by decide) (by decide) (by decide) (by decide)

/-- Helper: GET /sort with a valid field and asc order is the stable
ascending sort of the stored values. -/
theorem sort_patients_asc (s : Store) (f : String) (hf : f ∈ valid_feilds) :
    sort_patients s f "asc"
      = .ok (List.insertionSort (fun a b => sortKey a f ≤ sortKey b f)
          (s.map (·.2))) := by
  simp [sort_patients, hf, pysorted]

/-- Helper: GET /sort with a valid field and desc order reverses the
input, sorts ascending, and reverses back, exactly as CPython does. -/
theorem sort_patients_desc (s : Store) (f : String)
    (hf : f ∈ valid_feilds) :
    sort_patients s f "desc"
      = .ok ((List.insertionSort (fun a b => sortKey a f ≤ sortKey b f)
          ((s.map (·.2)).reverse)).reverse) := by
  simp [sort_patients, hf, pysorted]

/-- C1 (failing behavior): the bmi and verdict computed fields are
declared outside the Patient class, so a record materialized by create
and fetched by ID has no bmi or verdict field at all, even though the
module-level functions would give bmi 20 and verdict Normal for height 2
and weight 80. -/
theorem C1_derived_fields_missing :
    (create_patient [] alice).2 = .created ∧
    view_patient (create_patient [] alice).1 "P001"
      = some (model_dump_no_id alice) ∧
    dget (model_dump_no_id alice) "bmi" = none ∧
    dget (model_dump_no_id alice) "verdict" = none ∧
    bmi 2 80 = 20 ∧ verdict 2 80 = "Normal" := by
  refine ⟨by decide, by decide, by decide, by decide, ?_, ?_⟩
  · norm_num [bmi, round2]
  · norm_num [verdict, bmi, round2]

/-- C2 (failing behavior): stored records carry no bmi key, so sorting by
bmi compares the 0 fallback for every record and returns insertion order;
here Basim has the strictly larger bmi (35 against 20) yet a descending
bmi sort leaves Alice first, and the returned records have no bmi or
verdict fields. -/
theorem C2_sort_never_materializes_bmi :
    bmi 2 80 < bmi 3 315 ∧
    sort_patients
        [("P001", model_dump_no_id alice), ("P002", model_dump_no_id basim)]
        "bmi" "desc"
      = .ok [model_dump_no_id alice, model_dump_no_id basim] ∧
    dget (model_dump_no_id alice) "bmi" = none ∧
    dget (model_dump_no_id basim) "bmi" = none ∧
    dget (model_dump_no_id alice) "verdict" = none := by
  refine ⟨?_, by decide, by decide, by decide, by decide⟩
  norm_num [bmi, round2]

/-- C8 (counterexample): with tied keys, descending is not the reverse of
ascending.  Alice and Carol share height 2; the stable sort returns both
orders in insertion order, and that two-element list is not its own
reverse. -/
theorem C8_counterexample :
    sort_patients
        [("P001", model_dump_no_id alice), ("P003", model_dump_no_id carol)]
        "height" "asc"
      = .ok [model_dump_no_id alice, model_dump_no_id carol] ∧
    sort_patients
        [("P001", model_dump_no_id alice), ("P003", model_dump_no_id carol)]
        "height" "desc"
      = .ok [model_dump_no_id alice, model_dump_no_id carol] ∧
    sort_patients
        [("P001", model_dump_no_id alice), ("P003", model_dump_no_id carol)]
        "height" "desc"
      ≠ (sort_patients
          [("P001", model_dump_no_id alice), ("P003", model_dump_no_id carol)]
          "height" "asc").map List.reverse :=
  ⟨by decide, by decide, by decide⟩

/-- C8 (amended): when the sort keys of the stored records are pairwise
distinct, sorting descending yields exactly the reverse of sorting
ascending; with ties both directions keep tied records in their original
relative order, because the underlying sort is stable. -/
theorem C8_desc_reverse_asc_of_distinct (s : Store) (f : String)
    (hf : f ∈ valid_feilds)
    (hkeys : ((s.map (·.2)).map (fun d => sortKey d f)).Nodup) :
    sort_patients s f "desc"
      = (sort_patients s f "asc").map List.reverse := by
  rw [sort_patients_desc s f hf, sort_patients_asc s f hf,
    insertionSort_key_perm_eq (fun d => sortKey d f) _ _
      (List.reverse_perm _) (by simpa using hkeys)]
  rfl

/-- Witness for the amended C8 on distinct heights 2 and 3. -/
theorem C8_desc_reverse_asc_of_distinct_witness :
    sort_patients
        [("P001", model_dump_no_id alice), ("P002", model_dump_no_id basim)]
        "height" "desc"
      = (sort_patients
          [("P001", model_dump_no_id alice), ("P002", model_dump_no_id basim)]
          "height" "asc").map List.reverse :=
  C8_desc_reverse_asc_of_distinct
    [("P001", model_dump_no_id alice), ("P002", model_dump_no_id basim)]
    "height" (by decide) (by decide)
